import Mathlib

/-!
# Verification of the go-cache forward proxy (src/cmd/main.go)

A shallow embedding of the caching HTTP proxy: the cache store
(`Cache.Set` / `Cache.Get` / `Cache.Debug`), the cache-key derivation,
and the proxy request handler (`proxyHandler`), together with the
health endpoint from `main`.

External effects are made explicit parameters:
* `ParseURL` stands for `net/url.Parse` followed by `URL.String()`
  (`none` = parse error);
* `Client` stands for `http.NewRequest` + `http.DefaultClient.Do`;
  its outcome distinguishes request-construction failure, network
  failure, and a raw response whose `io.ReadAll` result is recorded in
  the `bodyRead` field.

The handler returns the HTTP result written to the client, the new
cache state, and the number of upstream (`Do`) calls made.
-/

set_option autoImplicit false

namespace GoCache

/-- A byte sequence (a Go `[]byte`). -/
abbrev Bytes := List Nat

/-- An `http.Header`: ordered list of canonical header name / values pairs. -/
abbrev Headers := List (String × List String)

/-- `http.Header.Get`: first value stored under the key, or "" when absent. -/
def headerGet (hs : Headers) (k : String) : String :=
  match hs.find? (fun p => p.1 == k) with
  | some (_, v :: _) => v
  | _ => ""

/-- `http.Header.Set`: replace the values under the key with the single value. -/
def headerSet (hs : Headers) (k v : String) : Headers :=
  if hs.any (fun p => p.1 == k) then
    hs.map (fun p => if p.1 == k then (k, [v]) else p)
  else
    hs ++ [(k, [v])]

/-- The parts of an inbound `*http.Request` the handler reads.
`target` is the value of the `target` query parameter; Go's
`Query().Get` returns "" both when the parameter is absent and when it
is empty, and the handler treats "" as missing. -/
structure Request where
  method : String
  target : String
  headers : Headers
  body : Bytes
deriving DecidableEq, Repr

deriving instance DecidableEq for Except

/-- The parts of an upstream `*http.Response` the handler uses.
`reqMethod` / `reqURL` mirror `Response.Request.Method` and
`Response.Request.URL.String()` as set by the HTTP client.
`bodyRead` records what `io.ReadAll(resp.Body)` yields: the fully
buffered bytes, or a read error message. -/
structure RawResponse where
  statusCode : Nat
  status : String
  header : Headers
  reqMethod : String
  reqURL : String
  bodyRead : Except String Bytes
deriving DecidableEq, Repr

/-- The Go `CacheEntry` struct: the upstream response plus its buffered body. -/
structure CacheEntry where
  response : RawResponse
  body : Bytes
deriving DecidableEq, Repr

/-- The `Cache.entries` map, modelled as an association list with
at most one entry per key (Go map semantics). -/
abbrev Cache := List (String × CacheEntry)

/-- `Cache.Get`: look a key up (`entry, ok := c.entries[key]`). -/
def Cache.get (c : Cache) (k : String) : Option CacheEntry :=
  match c with
  | [] => none
  | p :: rest => if p.1 = k then some p.2 else Cache.get rest k

/-- `Cache.Set`: insert, or replace the entry stored under the key
(`c.entries[key] = entry` on a Go map). -/
def Cache.set (c : Cache) (k : String) (e : CacheEntry) : Cache :=
  match c with
  | [] => [(k, e)]
  | p :: rest => if p.1 = k then (k, e) :: rest else p :: Cache.set rest k e

/-- How many records the store holds under a key (a Go map always has
at most one; the association-list model makes the invariant explicit). -/
def Cache.countKey (c : Cache) (k : String) : Nat :=
  (c.filter (fun p => p.1 == k)).length

/-- One line of the `/debug` dump: the four fields `Cache.Debug`
extracts from an entry. -/
structure DebugSummary where
  URL : String
  Method : String
  Status : String
  Size : Nat
deriving DecidableEq, Repr

/-- `Cache.Debug`: one summary per stored entry, built from
`entry.Response.Request.URL.String()`, `entry.Response.Request.Method`,
`entry.Response.Status` and `len(entry.Body)`. -/
def Cache.debug (c : Cache) : List (String × DebugSummary) :=
  c.map (fun p =>
    (p.1, { URL := p.2.response.reqURL
            Method := p.2.response.reqMethod
            Status := p.2.response.status
            Size := p.2.body.length }))

/-- Outcome of one forwarding attempt:
`createErr` = `http.NewRequest` failed, `doErr` = `http.DefaultClient.Do`
failed, `ok` = a response came back. -/
inductive ForwardOutcome where
  | createErr (msg : String)
  | doErr (msg : String)
  | ok (resp : RawResponse)
deriving DecidableEq, Repr

/-- The outbound HTTP client: method, URL, outbound headers, optional body. -/
abbrev Client := String → String → Headers → Option Bytes → ForwardOutcome

/-- `url.Parse` composed with `URL.String()`: `none` = parse error. -/
abbrev ParseURL := String → Option String

/-- What one `proxyHandler` run produces: the HTTP result written to
the client, the cache afterwards, and how many upstream `Do` calls
were made. -/
inductive HandlerResult where
  /-- A normal response: status, headers and body copied to the client. -/
  | response (status : Nat) (header : Headers) (body : Bytes)
  /-- An `http.Error` response: status code and plain-text message. -/
  | httpError (status : Nat) (msg : String)
  /-- The nil-pointer panic reached through `io.ReadAll(resp.Body)` on the
  zero-valued `&http.Response{}` left by a non-GET/non-POST method. -/
  | crash
deriving DecidableEq, Repr

structure HandlerOutput where
  result : HandlerResult
  cache : Cache
  upstreamCalls : Nat
deriving DecidableEq, Repr

/-- The cache key, exactly as `proxyHandler` concatenates it:
`r.Method + " " + targetURL.String() + " " + Content-Type + " " + Authorization`. -/
def deriveKey (method url contentType authorization : String) : String :=
  method ++ " " ++ url ++ " " ++ contentType ++ " " ++ authorization

/-- The shared tail of the miss path once a response exists:
`io.ReadAll`, `cache.Set`, and copying the response to the client. -/
def finishForward (c : Cache) (cacheKey : String) (resp : RawResponse) : HandlerOutput :=
  match resp.bodyRead with
  | .error e =>
    { result := .httpError 500 ("Error reading response body: " ++ e)
      cache := c
      upstreamCalls := 1 }
  | .ok body =>
    { result := .response resp.statusCode resp.header body
      cache := Cache.set c cacheKey { response := resp, body := body }
      upstreamCalls := 1 }

/-- The `proxyHandler` function of src/cmd/main.go. -/
def proxyHandler (parseURL : ParseURL) (client : Client) (c : Cache) (r : Request) :
    HandlerOutput :=
  if r.target = "" then
    { result := .httpError 400
        ("Up and running! Usage: ?target=<URL> (e.g., ?target=https://example.com)")
      cache := c
      upstreamCalls := 0 }
  else
    match parseURL r.target with
    | none =>
      { result := .httpError 400 "Invalid \x27target\x27 URL", cache := c, upstreamCalls := 0 }
    | some url =>
      let cacheKey := deriveKey r.method url
        (headerGet r.headers "Content-Type") (headerGet r.headers "Authorization")
      match Cache.get c cacheKey with
      | some cachedEntry =>
        { result := .response cachedEntry.response.statusCode
            cachedEntry.response.header cachedEntry.body
          cache := c
          upstreamCalls := 0 }
      | none =>
        let contentType := headerGet r.headers "Content-Type"
        if r.method = "GET" then
          match client "GET" url r.headers none with
          | .createErr e =>
            { result := .httpError 500 ("Error creating request: " ++ e)
              cache := c, upstreamCalls := 0 }
          | .doErr e =>
            { result := .httpError 500 ("Error forwarding request: " ++ e)
              cache := c, upstreamCalls := 1 }
          | .ok resp => finishForward c cacheKey resp
        else if r.method = "POST" then
          match client "POST" url (headerSet r.headers "Content-Type" contentType)
              (some r.body) with
          | .createErr e =>
            { result := .httpError 500 ("Error creating request: " ++ e)
              cache := c, upstreamCalls := 0 }
          | .doErr e =>
            { result := .httpError 500 ("Error forwarding request: " ++ e)
              cache := c, upstreamCalls := 1 }
          | .ok resp => finishForward c cacheKey resp
        else
          { result := .crash, cache := c, upstreamCalls := 0 }

/-- `debugHandler`: encodes `cache.Debug()` as the response. -/
def debugHandler (c : Cache) : List (String × DebugSummary) :=
  Cache.debug c

/-- The `/health` handler closure from `main`: 405 for any non-GET
method, otherwise 200 with an empty body. -/
def healthHandler (method : String) : HandlerResult :=
  if method ≠ "GET" then .httpError 405 "Method not allowed"
  else .response 200 [] []

/-! ## Concrete test fixtures (used by witnesses and counterexamples) -/

/-- A parse function for concrete runs: rejects the one string ":bad:". -/
def demoParse : ParseURL := fun s => if s = ":bad:" then none else some s

/-- A concrete upstream response with body "ok". -/
def demoResp : RawResponse :=
  { statusCode := 200
    status := "200 OK"
    header := [("Content-Type", ["application/json"])]
    reqMethod := "GET"
    reqURL := "http://example.com"
    bodyRead := .ok [111, 107] }

/-- A client that always answers with `demoResp`. -/
def demoClient : Client := fun _ _ _ _ => .ok demoResp

/-- A concrete stored entry. -/
def demoEntry : CacheEntry := { response := demoResp, body := [111, 107] }

/-! ## Helper lemmas on the cache store -/

theorem Cache.get_set_self (c : Cache) (k : String) (e : CacheEntry) :
    Cache.get (Cache.set c k e) k = some e := by
  induction c with
  | nil => simp [Cache.set, Cache.get]
  | cons p rest ih =>
    by_cases h : p.1 = k
    · simp [Cache.set, Cache.get, h]
    · simp [Cache.set, Cache.get, h, ih]

theorem Cache.get_set_ne (c : Cache) (k k' : String) (e : CacheEntry) (h : k' ≠ k) :
    Cache.get (Cache.set c k e) k' = Cache.get c k' := by
  induction c with
  | nil => simp [Cache.set, Cache.get, Ne.symm h]
  | cons p rest ih =>
    by_cases hp : p.1 = k
    · have hpk' : p.1 ≠ k' := by rw [hp]; exact Ne.symm h
      simp [Cache.set, Cache.get, hp, hpk', Ne.symm h]
    · by_cases hp' : p.1 = k'
      · simp [Cache.set, Cache.get, hp, hp', h]
      · simp [Cache.set, Cache.get, hp, hp', ih]

theorem Cache.countKey_nil (k : String) : Cache.countKey [] k = 0 := rfl

theorem Cache.countKey_cons (p : String × CacheEntry) (rest : Cache) (k : String) :
    Cache.countKey (p :: rest) k
      = Cache.countKey rest k + (if p.1 = k then 1 else 0) := by
  by_cases h : p.1 = k <;> simp [Cache.countKey, List.filter_cons, h]

theorem Cache.countKey_set (c : Cache) (k k' : String) (e : CacheEntry) :
    Cache.countKey (Cache.set c k e) k'
      = if k = k' then max (Cache.countKey c k') 1 else Cache.countKey c k' := by
  induction c with
  | nil =>
    by_cases h : k = k' <;>
      simp [Cache.set, Cache.countKey_cons, Cache.countKey_nil, h]
  | cons p rest ih =>
    by_cases hp : p.1 = k
    · by_cases h : k = k'
      · subst h
        simp [Cache.set, hp, Cache.countKey_cons]
      · simp [Cache.set, hp, Cache.countKey_cons, h]
    · by_cases h : k = k'
      · subst h
        simp [Cache.set, hp, Cache.countKey_cons, ih]
      · simp [Cache.set, hp, Cache.countKey_cons, ih, h]

theorem Cache.countKey_set_le (c : Cache) (k k' : String) (e : CacheEntry)
    (h : Cache.countKey c k' ≤ 1) :
    Cache.countKey (Cache.set c k e) k' ≤ 1 := by
  rw [Cache.countKey_set]
  by_cases hk : k = k' <;> simp [hk] <;> omega

/-! ## Helper lemmas on strings and the cache key -/

/-- Splitting a list at an element that occurs in neither prefix is
unambiguous. -/
theorem append_cons_eq_append_cons {α : Type} (c : α) :
    ∀ (a₁ a₂ r₁ r₂ : List α), c ∉ a₁ → c ∉ a₂ →
      a₁ ++ c :: r₁ = a₂ ++ c :: r₂ → a₁ = a₂ ∧ r₁ = r₂ := by
  intro a₁
  induction a₁ with
  | nil =>
    intro a₂ r₁ r₂ h₁ h₂ h
    cases a₂ with
    | nil => simpa using h
    | cons b bs =>
      rw [List.nil_append, List.cons_append] at h
      obtain ⟨hcb, -⟩ := List.cons.inj h
      exact absurd (hcb ▸ List.mem_cons_self b bs) h₂
  | cons a as ih =>
    intro a₂ r₁ r₂ h₁ h₂ h
    cases a₂ with
    | nil =>
      rw [List.cons_append, List.nil_append] at h
      obtain ⟨hac, -⟩ := List.cons.inj h
      exact absurd (hac ▸ List.mem_cons_self a as) h₁
    | cons b bs =>
      rw [List.cons_append, List.cons_append] at h
      obtain ⟨hab, hrest⟩ := List.cons.inj h
      have hm₁ : c ∉ as := fun hm => h₁ (List.mem_cons_of_mem _ hm)
      have hm₂ : c ∉ bs := fun hm => h₂ (List.mem_cons_of_mem _ hm)
      obtain ⟨he, hr⟩ := ih bs r₁ r₂ hm₁ hm₂ hrest
      exact ⟨by rw [hab, he], hr⟩

/-- The characters of a derived cache key. -/
theorem deriveKey_data (m u ct a : String) :
    (deriveKey m u ct a).data
      = m.data ++ ' ' :: (u.data ++ ' ' :: (ct.data ++ ' ' :: a.data)) := by
  simp [deriveKey, String.data_append]

/-- With space-free method, URL and Content-Type, the key determines
all four components. -/
theorem deriveKey_inj
    (m₁ u₁ ct₁ a₁ m₂ u₂ ct₂ a₂ : String)
    (hm₁ : ' ' ∉ m₁.data) (hm₂ : ' ' ∉ m₂.data)
    (hu₁ : ' ' ∉ u₁.data) (hu₂ : ' ' ∉ u₂.data)
    (hc₁ : ' ' ∉ ct₁.data) (hc₂ : ' ' ∉ ct₂.data)
    (h : deriveKey m₁ u₁ ct₁ a₁ = deriveKey m₂ u₂ ct₂ a₂) :
    m₁ = m₂ ∧ u₁ = u₂ ∧ ct₁ = ct₂ ∧ a₁ = a₂ := by
  have hdata := congrArg String.data h
  rw [deriveKey_data, deriveKey_data] at hdata
  obtain ⟨hm, hrest⟩ := append_cons_eq_append_cons ' ' _ _ _ _ hm₁ hm₂ hdata
  obtain ⟨hu, hrest⟩ := append_cons_eq_append_cons ' ' _ _ _ _ hu₁ hu₂ hrest
  obtain ⟨hc, ha⟩ := append_cons_eq_append_cons ' ' _ _ _ _ hc₁ hc₂ hrest
  exact ⟨String.ext hm, String.ext hu, String.ext hc, String.ext ha⟩

/-! ## C6 -/

/-- **C6**: after `Set(key, record)`, `Get(key)` returns exactly that
record; `Set` fully replaces the record under the same key and leaves
every other key untouched; and the at-most-one-record-per-key invariant
is preserved. Both operations are total by construction. -/
theorem C6_set_get_contract (c : Cache) (k : String) (e : CacheEntry) :
    Cache.get (Cache.set c k e) k = some e ∧
    (∀ k', k' ≠ k → Cache.get (Cache.set c k e) k' = Cache.get c k') ∧
    (∀ k', Cache.countKey c k' ≤ 1 → Cache.countKey (Cache.set c k e) k' ≤ 1) :=
  ⟨Cache.get_set_self c k e,
   fun k' h => Cache.get_set_ne c k k' e h,
   fun k' h => Cache.countKey_set_le c k k' e h⟩

/-- Witness for C6 at a concrete store, key and record. -/
theorem C6_set_get_contract_witness :
    Cache.get (Cache.set [] "GET http://a  " demoEntry) "GET http://a  " = some demoEntry ∧
    Cache.get (Cache.set [] "GET http://a  " demoEntry) "other" = Cache.get [] "other" ∧
    Cache.countKey (Cache.set [] "GET http://a  " demoEntry) "other" ≤ 1 := by
  obtain ⟨h1, h2, h3⟩ := C6_set_get_contract [] "GET http://a  " demoEntry
  exact ⟨h1, h2 "other" (by decide), h3 "other" (by decide)⟩

/-! ## C2 -/

/-- **C2, counterexample**: the space-delimited concatenation is not
injective, because the components may themselves contain the delimiter.
A Content-Type of `"a b"` with Authorization `"c"` collides with a
Content-Type of `"a"` with Authorization `"b c"`. -/
theorem C2_counterexample :
    deriveKey "GET" "http://example.com" "a b" "c"
      = deriveKey "GET" "http://example.com" "a" "b c" ∧
    ¬ (("a b" : String) = "a" ∧ ("c" : String) = "b c") := by
  constructor
  · decide
  · intro h
    exact absurd h.1 (by decide)

/-- **C2, amended**: identical fields always give identical keys, and
conversely the key determines the four fields provided the method, the
target URL string and the Content-Type value contain no space (the
delimiter); field tuples whose components contain spaces can collide. -/
theorem C2_key_iff
    (m₁ u₁ ct₁ a₁ m₂ u₂ ct₂ a₂ : String)
    (hm₁ : ' ' ∉ m₁.data) (hm₂ : ' ' ∉ m₂.data)
    (hu₁ : ' ' ∉ u₁.data) (hu₂ : ' ' ∉ u₂.data)
    (hc₁ : ' ' ∉ ct₁.data) (hc₂ : ' ' ∉ ct₂.data) :
    deriveKey m₁ u₁ ct₁ a₁ = deriveKey m₂ u₂ ct₂ a₂ ↔
      (m₁ = m₂ ∧ u₁ = u₂ ∧ ct₁ = ct₂ ∧ a₁ = a₂) := by
  constructor
  · exact deriveKey_inj m₁ u₁ ct₁ a₁ m₂ u₂ ct₂ a₂ hm₁ hm₂ hu₁ hu₂ hc₁ hc₂
  · rintro ⟨rfl, rfl, rfl, rfl⟩
    rfl

/-- Witness for C2 at concrete space-free components. -/
theorem C2_key_iff_witness :
    deriveKey "GET" "http://a/x" "text/plain" "Bearer" =
        deriveKey "GET" "http://a/x" "text/plain" "Bearer" ↔
      (("GET" : String) = "GET" ∧ ("http://a/x" : String) = "http://a/x" ∧
        ("text/plain" : String) = "text/plain" ∧ ("Bearer" : String) = "Bearer") :=
  C2_key_iff "GET" "http://a/x" "text/plain" "Bearer" "GET" "http://a/x" "text/plain" "Bearer"
    (by decide) (by decide) (by decide) (by decide) (by decide) (by decide)

/-! ## C7 -/

/-- **C7**: two requests identical in method, target URL and one key
header, but differing in the other (Content-Type or Authorization),
derive different cache keys; hence the second request misses a cache
populated only by the first, and (for GET/POST with a responding
client) makes one fresh upstream call. -/
theorem C7_changed_header_fresh_forward
    (m u ct₁ a₁ ct₂ a₂ : String) (e : CacheEntry)
    (parse : ParseURL) (client : Client) (r₂ : Request)
    (hdiff : (ct₁ = ct₂ ∧ a₁ ≠ a₂) ∨ (ct₁ ≠ ct₂ ∧ a₁ = a₂))
    (hm : r₂.method = m) (ht : r₂.target ≠ "") (hp : parse r₂.target = some u)
    (hct : headerGet r₂.headers "Content-Type" = ct₂)
    (ha : headerGet r₂.headers "Authorization" = a₂)
    (hmeth : m = "GET" ∨ m = "POST")
    (hclient : ∀ mth url hs b, ∃ resp, client mth url hs b = .ok resp) :
    deriveKey m u ct₂ a₂ ≠ deriveKey m u ct₁ a₁ ∧
    Cache.get [(deriveKey m u ct₁ a₁, e)] (deriveKey m u ct₂ a₂) = none ∧
    (proxyHandler parse client [(deriveKey m u ct₁ a₁, e)] r₂).upstreamCalls = 1 := by
  have hne : deriveKey m u ct₂ a₂ ≠ deriveKey m u ct₁ a₁ := by
    intro heq
    have hdata := congrArg String.data heq
    rw [deriveKey_data, deriveKey_data] at hdata
    have hdata' := List.append_cancel_left hdata
    obtain ⟨-, hdata''⟩ := List.cons.inj hdata'
    have htail := List.append_cancel_left hdata''
    obtain ⟨-, hcta⟩ := List.cons.inj htail
    rcases hdiff with ⟨hcteq, hane⟩ | ⟨hctne, haeq⟩
    · rw [hcteq] at hcta
      have := List.append_cancel_left hcta
      obtain ⟨-, hada⟩ := List.cons.inj this
      exact hane (String.ext hada).symm
    · rw [haeq] at hcta
      have hlen : ct₂.data.length = ct₁.data.length := by
        have := congrArg List.length hcta
        simpa using this
      obtain ⟨hctd, -⟩ := List.append_inj hcta hlen
      exact hctne (String.ext hctd).symm
  have hmiss : Cache.get [(deriveKey m u ct₁ a₁, e)] (deriveKey m u ct₂ a₂) = none := by
    simp [Cache.get, Ne.symm hne]
  refine ⟨hne, hmiss, ?_⟩
  rcases hmeth with hG | hP
  · subst hG
    obtain ⟨resp, hresp⟩ := hclient "GET" u r₂.headers none
    simp only [proxyHandler, if_neg ht, hp, hm, hct, ha, hmiss, hresp]
    cases hb : resp.bodyRead <;> simp [finishForward, hb]
  · subst hP
    obtain ⟨resp, hresp⟩ := hclient "POST" u
      (headerSet r₂.headers "Content-Type" ct₂) (some r₂.body)
    simp only [proxyHandler, if_neg ht, hp, hm, hct, ha, hmiss, hresp]
    cases hb : resp.bodyRead <;> simp [finishForward, hb]

/-- Witness for C7: same method, URL and Content-Type, two different
Authorization values. -/
theorem C7_changed_header_fresh_forward_witness :
    deriveKey "GET" "http://a" "x" "t2" ≠ deriveKey "GET" "http://a" "x" "t1" ∧
    Cache.get [(deriveKey "GET" "http://a" "x" "t1", demoEntry)]
        (deriveKey "GET" "http://a" "x" "t2") = none ∧
    (proxyHandler demoParse demoClient [(deriveKey "GET" "http://a" "x" "t1", demoEntry)]
      { method := "GET", target := "http://a"
        headers := [("Content-Type", ["x"]), ("Authorization", ["t2"])], body := [] }).upstreamCalls
      = 1 :=
  C7_changed_header_fresh_forward "GET" "http://a" "x" "t1" "x" "t2" demoEntry
    demoParse demoClient
    { method := "GET", target := "http://a"
      headers := [("Content-Type", ["x"]), ("Authorization", ["t2"])], body := [] }
    (Or.inl ⟨rfl, by decide⟩) rfl (by decide) (by decide) (by decide) (by decide)
    (Or.inl rfl) (fun _ _ _ _ => ⟨demoResp, rfl⟩)

/-! ## C1 -/

/-- **C1**: if a first request misses, forwards successfully and buffers
the body, then a second request with the same method, parsed target and
key headers replays the stored response byte-for-byte (same status,
headers, body) with zero upstream calls and an unchanged cache, for an
arbitrary (possibly different) client. -/
theorem C1_cache_hit_replays_first_response
    (parse : ParseURL) (client₁ client₂ : Client) (c : Cache) (r₁ r₂ : Request)
    (u : String) (resp : RawResponse) (body : Bytes)
    (ht₁ : r₁.target ≠ "") (hp₁ : parse r₁.target = some u)
    (hmiss : Cache.get c
      (deriveKey r₁.method u (headerGet r₁.headers "Content-Type")
        (headerGet r₁.headers "Authorization")) = none)
    (hfwd : (r₁.method = "GET" ∧ client₁ "GET" u r₁.headers none = .ok resp)
      ∨ (r₁.method = "POST" ∧
          client₁ "POST" u
            (headerSet r₁.headers "Content-Type" (headerGet r₁.headers "Content-Type"))
            (some r₁.body) = .ok resp))
    (hread : resp.bodyRead = .ok body)
    (ht₂ : r₂.target ≠ "") (hp₂ : parse r₂.target = some u)
    (hm₂ : r₂.method = r₁.method)
    (hct₂ : headerGet r₂.headers "Content-Type" = headerGet r₁.headers "Content-Type")
    (ha₂ : headerGet r₂.headers "Authorization" = headerGet r₁.headers "Authorization") :
    (proxyHandler parse client₁ c r₁).result
      = .response resp.statusCode resp.header body ∧
    (proxyHandler parse client₂ (proxyHandler parse client₁ c r₁).cache r₂).result
      = (proxyHandler parse client₁ c r₁).result ∧
    (proxyHandler parse client₂ (proxyHandler parse client₁ c r₁).cache r₂).upstreamCalls = 0 ∧
    (proxyHandler parse client₂ (proxyHandler parse client₁ c r₁).cache r₂).cache
      = (proxyHandler parse client₁ c r₁).cache := by
  have hout₁ : proxyHandler parse client₁ c r₁ =
      { result := .response resp.statusCode resp.header body
        cache := Cache.set c
          (deriveKey r₁.method u (headerGet r₁.headers "Content-Type")
            (headerGet r₁.headers "Authorization"))
          { response := resp, body := body }
        upstreamCalls := 1 } := by
    rcases hfwd with ⟨hG, hcall⟩ | ⟨hP, hcall⟩
    · simp only [proxyHandler, if_neg ht₁, hp₁, hG, hmiss, hcall, finishForward, hread]
      simp [hG ▸ hmiss]
    · simp only [proxyHandler, if_neg ht₁, hp₁, hP, hmiss, hcall, finishForward, hread]
      simp [hP ▸ hmiss]
  have hhit : Cache.get (proxyHandler parse client₁ c r₁).cache
      (deriveKey r₂.method u (headerGet r₂.headers "Content-Type")
        (headerGet r₂.headers "Authorization"))
      = some { response := resp, body := body } := by
    rw [hout₁, hm₂, hct₂, ha₂]
    exact Cache.get_set_self c _ _
  have hout₂ : ∀ c₂ : Cache,
      Cache.get c₂
        (deriveKey r₂.method u (headerGet r₂.headers "Content-Type")
          (headerGet r₂.headers "Authorization"))
        = some { response := resp, body := body } →
      proxyHandler parse client₂ c₂ r₂ =
        { result := .response resp.statusCode resp.header body
          cache := c₂
          upstreamCalls := 0 } := by
    intro c₂ hh
    simp only [proxyHandler, if_neg ht₂, hp₂, hh]
  rw [hout₂ _ hhit, hout₁]
  exact ⟨rfl, rfl, rfl, rfl⟩

/-- A client used for second requests in witnesses: it only ever fails,
so a replayed response demonstrably never comes from it. -/
def deadClient : Client := fun _ _ _ _ => .doErr "unreachable"

/-- A concrete GET request used by witnesses. -/
def demoReq : Request :=
  { method := "GET", target := "http://a"
    headers := [("Authorization", ["t"])], body := [] }

/-- Witness for C1: the same request twice against a fresh cache; the
second run uses a client that can only fail, yet replays the first
response with zero upstream calls. -/
theorem C1_cache_hit_replays_first_response_witness :
    (proxyHandler demoParse demoClient [] demoReq).result
      = .response demoResp.statusCode demoResp.header [111, 107] ∧
    (proxyHandler demoParse deadClient (proxyHandler demoParse demoClient [] demoReq).cache
        demoReq).result
      = (proxyHandler demoParse demoClient [] demoReq).result ∧
    (proxyHandler demoParse deadClient (proxyHandler demoParse demoClient [] demoReq).cache
        demoReq).upstreamCalls = 0 ∧
    (proxyHandler demoParse deadClient (proxyHandler demoParse demoClient [] demoReq).cache
        demoReq).cache
      = (proxyHandler demoParse demoClient [] demoReq).cache :=
  C1_cache_hit_replays_first_response demoParse demoClient deadClient [] demoReq demoReq
    "http://a" demoResp [111, 107]
    (by decide) (by decide) rfl (Or.inl ⟨rfl, rfl⟩) rfl
    (by decide) (by decide) rfl rfl rfl

/-! ## C3 -/

/-- **C3 (actual code behavior)**: a valid-target DELETE request on a
cold cache reaches `io.ReadAll(resp.Body)` with the zero-valued
`&http.Response{}` whose `Body` is nil, and the handler crashes instead
of writing any failure response; no cache entry is created and no
upstream call is made. -/
theorem C3_other_method_crashes :
    proxyHandler demoParse demoClient []
        { method := "DELETE", target := "http://example.com", headers := [], body := [] }
      = { result := .crash, cache := [], upstreamCalls := 0 } ∧
    HandlerResult.crash ≠ .httpError 400 "Method not allowed" ∧
    (∀ s h b, HandlerResult.crash ≠ .response s h b) := by
  refine ⟨by decide, by decide, ?_⟩
  intro s h b hc
  cases hc

/-! ## C4 -/

/-- The outbound forwarding call `proxyHandler` makes for a GET or POST
request, with the arguments the respective branch passes. -/
def outboundCall (client : Client) (r : Request) (u : String) : ForwardOutcome :=
  if r.method = "GET" then client "GET" u r.headers none
  else client "POST" u
    (headerSet r.headers "Content-Type" (headerGet r.headers "Content-Type"))
    (some r.body)

/-- **C4**: if the forward fails (at request construction or at the
network call) or the body read fails, the handler answers 500 carrying
the underlying error text, the cache is unchanged, and the key is still
absent — so an identical retry goes upstream again instead of replaying
a failure. -/
theorem C4_forward_failure_500_not_cached
    (parse : ParseURL) (client : Client) (c : Cache) (r : Request) (u errText : String)
    (ht : r.target ≠ "") (hp : parse r.target = some u)
    (hmiss : Cache.get c
      (deriveKey r.method u (headerGet r.headers "Content-Type")
        (headerGet r.headers "Authorization")) = none)
    (hmeth : r.method = "GET" ∨ r.method = "POST")
    (hfail : outboundCall client r u = .createErr errText ∨
      outboundCall client r u = .doErr errText ∨
      ∃ resp, outboundCall client r u = .ok resp ∧ resp.bodyRead = .error errText) :
    (proxyHandler parse client c r).cache = c ∧
    (∃ pre, (proxyHandler parse client c r).result = .httpError 500 (pre ++ errText)) ∧
    Cache.get (proxyHandler parse client c r).cache
      (deriveKey r.method u (headerGet r.headers "Content-Type")
        (headerGet r.headers "Authorization")) = none := by
  rcases hmeth with hG | hP
  · rw [outboundCall, if_pos hG] at hfail
    rcases hfail with hcall | hcall | ⟨resp, hcall, hb⟩
    · have hout : proxyHandler parse client c r =
          { result := .httpError 500 ("Error creating request: " ++ errText)
            cache := c, upstreamCalls := 0 } := by
        simp only [proxyHandler, if_neg ht, hp, hmiss, if_pos hG, hcall]
      rw [hout]
      exact ⟨rfl, ⟨"Error creating request: ", rfl⟩, hmiss⟩
    · have hout : proxyHandler parse client c r =
          { result := .httpError 500 ("Error forwarding request: " ++ errText)
            cache := c, upstreamCalls := 1 } := by
        simp only [proxyHandler, if_neg ht, hp, hmiss, if_pos hG, hcall]
      rw [hout]
      exact ⟨rfl, ⟨"Error forwarding request: ", rfl⟩, hmiss⟩
    · have hout : proxyHandler parse client c r =
          { result := .httpError 500 ("Error reading response body: " ++ errText)
            cache := c, upstreamCalls := 1 } := by
        simp only [proxyHandler, if_neg ht, hp, hmiss, if_pos hG, hcall, finishForward, hb]
      rw [hout]
      exact ⟨rfl, ⟨"Error reading response body: ", rfl⟩, hmiss⟩
  · have hGne : r.method ≠ "GET" := by rw [hP]; decide
    rw [outboundCall, if_neg hGne] at hfail
    rcases hfail with hcall | hcall | ⟨resp, hcall, hb⟩
    · have hout : proxyHandler parse client c r =
          { result := .httpError 500 ("Error creating request: " ++ errText)
            cache := c, upstreamCalls := 0 } := by
        simp only [proxyHandler, if_neg ht, hp, hmiss, if_neg hGne, if_pos hP, hcall]
      rw [hout]
      exact ⟨rfl, ⟨"Error creating request: ", rfl⟩, hmiss⟩
    · have hout : proxyHandler parse client c r =
          { result := .httpError 500 ("Error forwarding request: " ++ errText)
            cache := c, upstreamCalls := 1 } := by
        simp only [proxyHandler, if_neg ht, hp, hmiss, if_neg hGne, if_pos hP, hcall]
      rw [hout]
      exact ⟨rfl, ⟨"Error forwarding request: ", rfl⟩, hmiss⟩
    · have hout : proxyHandler parse client c r =
          { result := .httpError 500 ("Error reading response body: " ++ errText)
            cache := c, upstreamCalls := 1 } := by
        simp only [proxyHandler, if_neg ht, hp, hmiss, if_neg hGne, if_pos hP, hcall,
          finishForward, hb]
      rw [hout]
      exact ⟨rfl, ⟨"Error reading response body: ", rfl⟩, hmiss⟩

/-- A client whose network call always fails. -/
def failingClient : Client := fun _ _ _ _ => .doErr "connection refused"

/-- Witness for C4: a failing upstream yields a 500 and leaves the
cache empty. -/
theorem C4_forward_failure_500_not_cached_witness :
    (proxyHandler demoParse failingClient [] demoReq).cache = [] ∧
    (∃ pre, (proxyHandler demoParse failingClient [] demoReq).result
      = .httpError 500 (pre ++ "connection refused")) ∧
    Cache.get (proxyHandler demoParse failingClient [] demoReq).cache
      (deriveKey demoReq.method "http://a" (headerGet demoReq.headers "Content-Type")
        (headerGet demoReq.headers "Authorization")) = none :=
  C4_forward_failure_500_not_cached demoParse failingClient [] demoReq "http://a"
    "connection refused" (by decide) (by decide) rfl (Or.inl rfl) (Or.inr (Or.inl rfl))

/-! ## C5 -/

/-- **C5**: a missing (empty) `target` parameter, or one that fails URL
parsing, terminates with a 400, zero upstream calls and an unchanged
cache. -/
theorem C5_bad_target_400
    (parse : ParseURL) (client : Client) (c : Cache) (r : Request)
    (h : r.target = "" ∨ parse r.target = none) :
    (proxyHandler parse client c r).cache = c ∧
    (proxyHandler parse client c r).upstreamCalls = 0 ∧
    ∃ msg, (proxyHandler parse client c r).result = .httpError 400 msg := by
  rcases h with h | h
  · have hout : proxyHandler parse client c r =
        { result := .httpError 400
            "Up and running! Usage: ?target=<URL> (e.g., ?target=https://example.com)"
          cache := c, upstreamCalls := 0 } := by
      simp only [proxyHandler, if_pos h]
    rw [hout]
    exact ⟨rfl, rfl, ⟨_, rfl⟩⟩
  · by_cases ht : r.target = ""
    · have hout : proxyHandler parse client c r =
          { result := .httpError 400
              "Up and running! Usage: ?target=<URL> (e.g., ?target=https://example.com)"
            cache := c, upstreamCalls := 0 } := by
        simp only [proxyHandler, if_pos ht]
      rw [hout]
      exact ⟨rfl, rfl, ⟨_, rfl⟩⟩
    · have hout : proxyHandler parse client c r =
          { result := .httpError 400 "Invalid \x27target\x27 URL"
            cache := c, upstreamCalls := 0 } := by
        simp only [proxyHandler, if_neg ht, h]
      rw [hout]
      exact ⟨rfl, rfl, ⟨_, rfl⟩⟩

/-- A request whose `target` value `demoParse` rejects. -/
def badReq : Request :=
  { method := "GET", target := ":bad:", headers := [], body := [] }

/-- Witness for C5 at an unparsable target. -/
theorem C5_bad_target_400_witness :
    (proxyHandler demoParse demoClient [] badReq).cache = [] ∧
    (proxyHandler demoParse demoClient [] badReq).upstreamCalls = 0 ∧
    ∃ msg, (proxyHandler demoParse demoClient [] badReq).result = .httpError 400 msg :=
  C5_bad_target_400 demoParse demoClient [] badReq (Or.inr (by decide))

/-! ## C8 -/

theorem Cache.debug_length (c : Cache) : (Cache.debug c).length = c.length := by
  simp [Cache.debug]

theorem Cache.length_set_of_get_none (c : Cache) (k : String) (e : CacheEntry)
    (h : Cache.get c k = none) : (Cache.set c k e).length = c.length + 1 := by
  induction c with
  | nil => simp [Cache.set]
  | cons p rest ih =>
    by_cases hp : p.1 = k
    · simp [Cache.get, hp] at h
    · simp only [Cache.get, hp, if_neg, if_false] at h
      simp [Cache.set, hp, ih (by simpa [hp] using h)]

theorem Cache.length_foldl_set (kes : List (String × CacheEntry)) :
    ∀ acc : Cache, (∀ k ∈ kes.map Prod.fst, Cache.get acc k = none) →
      (kes.map Prod.fst).Nodup →
      (kes.foldl (fun cc ke => Cache.set cc ke.1 ke.2) acc).length
        = acc.length + kes.length := by
  induction kes with
  | nil => intro acc _ _; simp
  | cons ke rest ih =>
    intro acc hfresh hnodup
    rw [List.map_cons, List.nodup_cons] at hnodup
    have h1 : Cache.get acc ke.1 = none := hfresh ke.1 (by simp)
    have hfresh' : ∀ k ∈ rest.map Prod.fst, Cache.get (Cache.set acc ke.1 ke.2) k = none := by
      intro k hk
      have hne : k ≠ ke.1 := fun hh => hnodup.1 (hh ▸ hk)
      rw [Cache.get_set_ne acc ke.1 k ke.2 hne]
      exact hfresh k (by simp [hk])
    rw [List.foldl_cons, ih (Cache.set acc ke.1 ke.2) hfresh' hnodup.2,
      Cache.length_set_of_get_none acc ke.1 ke.2 h1, List.length_cons]
    omega

/-- **C8**: the debug dump has exactly one summary per stored entry
(after storing N records under distinct keys it reports exactly N
entries), and each stored entry is reported with its URL, method,
status, and a Size equal to its buffered body length. -/
theorem C8_debug_dump (c : Cache) (kes : List (String × CacheEntry)) :
    (Cache.debug c).length = c.length ∧
    (∀ ke ∈ c,
      (ke.1, { URL := ke.2.response.reqURL
               Method := ke.2.response.reqMethod
               Status := ke.2.response.status
               Size := ke.2.body.length : DebugSummary }) ∈ Cache.debug c) ∧
    ((kes.map Prod.fst).Nodup →
      (Cache.debug (kes.foldl (fun cc ke => Cache.set cc ke.1 ke.2) [])).length
        = kes.length) := by
  refine ⟨Cache.debug_length c, ?_, ?_⟩
  · intro ke hke
    exact List.mem_map_of_mem _ hke
  · intro hnd
    rw [Cache.debug_length,
      Cache.length_foldl_set kes [] (fun k _ => rfl) hnd]
    simp

/-- Witness for C8: a one-entry store reports one summary with the
right fields, and two distinct cached keys report two entries. -/
theorem C8_debug_dump_witness :
    (Cache.debug [("k1", demoEntry)]).length = 1 ∧
    ("k1", { URL := demoEntry.response.reqURL
             Method := demoEntry.response.reqMethod
             Status := demoEntry.response.status
             Size := demoEntry.body.length : DebugSummary })
      ∈ Cache.debug [("k1", demoEntry)] ∧
    (Cache.debug ([("a", demoEntry), ("b", demoEntry)].foldl
        (fun cc ke => Cache.set cc ke.1 ke.2) [])).length = 2 := by
  obtain ⟨h1, h2, h3⟩ := C8_debug_dump [("k1", demoEntry)] [("a", demoEntry), ("b", demoEntry)]
  exact ⟨h1, h2 ("k1", demoEntry) (by simp), h3 (by simp)⟩

/-! ## C9 -/

/-- **C9**: the health endpoint answers 200 with an empty body to GET
and 405 to every other method. -/
theorem C9_health_endpoint (m : String) :
    healthHandler "GET" = .response 200 [] [] ∧
    (m ≠ "GET" → healthHandler m = .httpError 405 "Method not allowed") := by
  constructor
  · rfl
  · intro h
    simp [healthHandler, h]

/-- Witness for C9 at method POST. -/
theorem C9_health_endpoint_witness :
    healthHandler "GET" = .response 200 [] [] ∧
    healthHandler "POST" = .httpError 405 "Method not allowed" :=
  ⟨(C9_health_endpoint "POST").1, (C9_health_endpoint "POST").2 (by decide)⟩

/-! ## C10 -/

/-- The key begins with "GET " or with "POST ". -/
def methodTagged (k : String) : Prop :=
  (("GET " : String).data <+: k.data) ∨ (("POST " : String).data <+: k.data)

instance (k : String) : Decidable (methodTagged k) :=
  inferInstanceAs (Decidable (_ ∨ _))

theorem methodTagged_deriveKey (m u ct a : String) (hm : m = "GET" ∨ m = "POST") :
    methodTagged (deriveKey m u ct a) := by
  rcases hm with rfl | rfl
  · left
    refine ⟨u.data ++ ' ' :: (ct.data ++ ' ' :: a.data), ?_⟩
    rw [deriveKey_data]
    rfl
  · right
    refine ⟨u.data ++ ' ' :: (ct.data ++ ' ' :: a.data), ?_⟩
    rw [deriveKey_data]
    rfl

theorem not_methodTagged_deriveKey (m u ct a : String)
    (hs : ' ' ∉ m.data) (h1 : m ≠ "GET") (h2 : m ≠ "POST") :
    ¬ methodTagged (deriveKey m u ct a) := by
  intro h
  rcases h with ⟨t, ht⟩ | ⟨t, ht⟩
  · rw [deriveKey_data] at ht
    have heq : ['G', 'E', 'T'] ++ ' ' :: t
        = m.data ++ ' ' :: (u.data ++ ' ' :: (ct.data ++ ' ' :: a.data)) := ht
    obtain ⟨hm', -⟩ :=
      append_cons_eq_append_cons ' ' ['G', 'E', 'T'] m.data t _ (by decide) hs heq
    exact h1 (@String.ext m "GET" hm'.symm)
  · rw [deriveKey_data] at ht
    have heq : ['P', 'O', 'S', 'T'] ++ ' ' :: t
        = m.data ++ ' ' :: (u.data ++ ' ' :: (ct.data ++ ' ' :: a.data)) := ht
    obtain ⟨hm', -⟩ :=
      append_cons_eq_append_cons ' ' ['P', 'O', 'S', 'T'] m.data t _ (by decide) hs heq
    exact h2 (@String.ext m "POST" hm'.symm)

theorem Cache.get_none_of_not_tagged (c : Cache) (k₀ : String)
    (hInv : ∀ k ∈ c.map Prod.fst, methodTagged k) (hk : ¬ methodTagged k₀) :
    Cache.get c k₀ = none := by
  induction c with
  | nil => rfl
  | cons p rest ih =>
    have hp : p.1 ≠ k₀ := fun hh => hk (hh ▸ hInv p.1 (by simp))
    simp only [Cache.get, hp, if_false]
    exact ih fun k hk' => hInv k (by simp at hk' ⊢; exact Or.inr hk')

theorem Cache.mem_keys_set (c : Cache) (k : String) (e : CacheEntry) :
    ∀ k' ∈ (Cache.set c k e).map Prod.fst, k' = k ∨ k' ∈ c.map Prod.fst := by
  induction c with
  | nil =>
    intro k' hk'
    simp [Cache.set] at hk'
    exact Or.inl hk'
  | cons p rest ih =>
    intro k' hk'
    by_cases hp : p.1 = k
    · simp only [Cache.set, hp, if_true, if_pos, List.map_cons, List.mem_cons] at hk'
      rcases hk' with rfl | h
      · exact Or.inl rfl
      · exact Or.inr (by simp; right; simpa using h)
    · simp only [Cache.set, hp, if_false, List.map_cons, List.mem_cons] at hk'
      rcases hk' with rfl | h
      · exact Or.inr (by simp)
      · rcases ih k' (by simpa using h) with h1 | h1
        · exact Or.inl h1
        · exact Or.inr (by simp at h1 ⊢; exact Or.inr h1)

/-- After any run, the cache is either unchanged or extended by exactly
one record stored under the derived key of a GET or POST request. -/
theorem proxyHandler_cache_cases (parse : ParseURL) (client : Client) (c : Cache) (r : Request) :
    (proxyHandler parse client c r).cache = c ∨
    ∃ u resp body, parse r.target = some u ∧ (r.method = "GET" ∨ r.method = "POST") ∧
      (proxyHandler parse client c r).cache
        = Cache.set c
            (deriveKey r.method u (headerGet r.headers "Content-Type")
              (headerGet r.headers "Authorization"))
            { response := resp, body := body } := by
  by_cases ht : r.target = ""
  · left
    simp [proxyHandler, ht]
  · cases hp : parse r.target with
    | none =>
      left
      simp [proxyHandler, if_neg ht, hp]
    | some url =>
      cases hget : Cache.get c
          (deriveKey r.method url (headerGet r.headers "Content-Type")
            (headerGet r.headers "Authorization")) with
      | some entry =>
        left
        simp [proxyHandler, if_neg ht, hp, hget]
      | none =>
        by_cases hG : r.method = "GET"
        · cases hcall : client "GET" url r.headers none with
          | createErr e =>
            left
            simp [proxyHandler, if_neg ht, hp, hget, if_pos hG, hcall]
          | doErr e =>
            left
            simp [proxyHandler, if_neg ht, hp, hget, if_pos hG, hcall]
          | ok resp =>
            cases hb : resp.bodyRead with
            | error e =>
              left
              simp [proxyHandler, if_neg ht, hp, hget, if_pos hG, hcall, finishForward, hb]
            | ok body =>
              right
              exact ⟨url, resp, body, rfl, Or.inl hG,
                by simp [proxyHandler, if_neg ht, hp, hget, if_pos hG, hcall,
                  finishForward, hb]⟩
        · by_cases hPm : r.method = "POST"
          · cases hcall : client "POST" url
                (headerSet r.headers "Content-Type" (headerGet r.headers "Content-Type"))
                (some r.body) with
            | createErr e =>
              left
              simp [proxyHandler, if_neg ht, hp, hget, if_neg hG, if_pos hPm, hcall]
            | doErr e =>
              left
              simp [proxyHandler, if_neg ht, hp, hget, if_neg hG, if_pos hPm, hcall]
            | ok resp =>
              cases hb : resp.bodyRead with
              | error e =>
                left
                simp [proxyHandler, if_neg ht, hp, hget, if_neg hG, if_pos hPm, hcall,
                  finishForward, hb]
              | ok body =>
                right
                exact ⟨url, resp, body, rfl, Or.inr hPm,
                  by simp [proxyHandler, if_neg ht, hp, hget, if_neg hG, if_pos hPm, hcall,
                    finishForward, hb]⟩
          · left
            simp [proxyHandler, if_neg ht, hp, hget, if_neg hG, if_neg hPm]

/-- **C10**: if every stored key begins with "GET " or "POST ", the
handler preserves that invariant (records are stored only after a GET
or POST forward, and the key embeds the method); and for any other
(space-free) method the derived key cannot match a stored key, so the
cache-hit replay branch is never taken. -/
theorem C10_method_key_invariant
    (parse : ParseURL) (client : Client) (c : Cache) (r : Request)
    (hInv : ∀ k ∈ c.map Prod.fst, methodTagged k) :
    (∀ k ∈ ((proxyHandler parse client c r).cache).map Prod.fst, methodTagged k) ∧
    (∀ u ct a, r.method ≠ "GET" → r.method ≠ "POST" → ' ' ∉ r.method.data →
      Cache.get c (deriveKey r.method u ct a) = none) := by
  constructor
  · rcases proxyHandler_cache_cases parse client c r with h | ⟨u, resp, body, hp, hmeth, h⟩
    · rw [h]
      exact hInv
    · rw [h]
      intro k hk
      rcases Cache.mem_keys_set c _ _ k hk with rfl | hk'
      · exact methodTagged_deriveKey _ _ _ _ hmeth
      · exact hInv k hk'
  · intro u ct a h1 h2 hs
    exact Cache.get_none_of_not_tagged c _ hInv (not_methodTagged_deriveKey _ u ct a hs h1 h2)

/-- A request with an unsupported method. -/
def delReq : Request :=
  { method := "DELETE", target := "http://x", headers := [], body := [] }

/-- Witness for C10: a one-entry GET-tagged cache stays tagged across a
DELETE request, and a DELETE-derived key misses it. -/
theorem C10_method_key_invariant_witness :
    methodTagged "GET http://a  t" ∧
    Cache.get [("GET http://a  t", demoEntry)] (deriveKey "DELETE" "http://x" "" "") = none := by
  obtain ⟨h1, h2⟩ := C10_method_key_invariant demoParse demoClient
    [("GET http://a  t", demoEntry)] delReq (by decide)
  exact ⟨h1 "GET http://a  t" (by decide), h2 "http://x" "" "" (by decide) (by decide) (by decide)⟩

end GoCache
